import Mathlib

/-!
Shallow embedding of the media-digest pipeline core (item store, status
state machine, stage processors, export writer, retry policy), translated
from the Python sources under src/, together with theorems settling the
specification claims about it.

Conventions of the embedding:
* Each table is a list of typed rows; a SQL UPDATE ... WHERE key = ? is a
  `List.map` that rewrites exactly the rows whose key matches.
* Timestamps are naturals; the SQL `now()` becomes an explicit `now`
  argument threaded through every mutating operation.
* Statuses are the five literals the code ever stores, as an inductive.
* External collaborators (audio download, transcription, newsletter body
  parsing) are parameters of type `... → Except String ...`: a Python
  exception raised inside the per-item try block is an `Except.error`
  carrying `str(exc)`.
-/

namespace MediaDigest

/-- The five status literals stored by the pipeline
(src/db/schema.py, src/cli/*.py). -/
inductive Status where
  | pending
  | in_progress
  | completed
  | failed
  | skipped
deriving DecidableEq, Repr

/-- A row of the `episodes` table (src/db/schema.py). -/
structure Episode where
  guid : String
  feed_url : String
  title : String
  publish_date : String
  author : Option String
  audio_url : Option String
  video_url : Option String
  status : Status
  error_reason : Option String
  created_at : Nat
  updated_at : Nat
deriving DecidableEq, Repr

/-- A row of the `newsletters` table (src/db/schema.py). -/
structure Newsletter where
  message_id : String
  subject : String
  sender : String
  date : String
  body_html : Option String
  body_text : Option String
  link : Option String
  status : Status
  error_reason : Option String
  created_at : Nat
  updated_at : Nat
deriving DecidableEq, Repr

/-- A row of the `transcripts` table (src/db/schema.py). -/
structure TranscriptRow where
  episode_guid : String
  transcript_text : String
  transcript_path : String
  created_at : Nat
deriving DecidableEq, Repr

/-- A row of the `summaries` table (src/db/schema.py).  `item_id` is the
primary key; `item_type` distinguishes podcast from newsletter. -/
structure SummaryRow where
  item_id : String
  item_type : String
  summary : String
  key_topics : String
  companies : String
  tools : String
  quotes : String
  raw_rating : Int
  final_rating : Int
  created_at : Nat
deriving DecidableEq, Repr

/-- `upsert_episode` (src/db/queries.py:11).  INSERT ... ON CONFLICT (guid)
DO UPDATE SET title, audio_url, video_url, updated_at = now(). -/
def upsertEpisode (db : List Episode) (now : Nat) (guid feed_url title publish_date : String)
    (author audio_url video_url : Option String) (status : Status := .pending) : List Episode :=
  if db.any (fun e => e.guid == guid) then
    db.map (fun e =>
      if e.guid == guid then
        { e with title := title, audio_url := audio_url, video_url := video_url,
                 updated_at := now }
      else e)
  else
    db ++ [{ guid := guid, feed_url := feed_url, title := title,
             publish_date := publish_date, author := author, audio_url := audio_url,
             video_url := video_url, status := status, error_reason := none,
             created_at := now, updated_at := now }]

/-- `upsert_newsletter` (src/db/queries.py:51).  INSERT ... ON CONFLICT
(message_id) DO UPDATE SET subject, body_html, body_text, link,
updated_at = now(). -/
def upsertNewsletter (db : List Newsletter) (now : Nat) (message_id subject sender date : String)
    (body_html body_text link : Option String) (status : Status := .pending) : List Newsletter :=
  if db.any (fun n => n.message_id == message_id) then
    db.map (fun n =>
      if n.message_id == message_id then
        { n with subject := subject, body_html := body_html, body_text := body_text,
                 link := link, updated_at := now }
      else n)
  else
    db ++ [{ message_id := message_id, subject := subject, sender := sender, date := date,
             body_html := body_html, body_text := body_text, link := link,
             status := status, error_reason := none, created_at := now, updated_at := now }]

/-- `update_episode_status` (src/db/queries.py:92).  UPDATE episodes SET
status, error_reason, updated_at = now() WHERE guid = ?.  Note the source
performs no validation of the move: any target status is applied. -/
def updateEpisodeStatus (db : List Episode) (now : Nat) (guid : String) (status : Status)
    (error_reason : Option String := none) : List Episode :=
  db.map (fun e =>
    if e.guid == guid then
      { e with status := status, error_reason := error_reason, updated_at := now }
    else e)

/-- `update_newsletter_status` (src/db/queries.py:113). -/
def updateNewsletterStatus (db : List Newsletter) (now : Nat) (message_id : String)
    (status : Status) (error_reason : Option String := none) : List Newsletter :=
  db.map (fun n =>
    if n.message_id == message_id then
      { n with status := status, error_reason := error_reason, updated_at := now }
    else n)

/-- `save_transcript` (src/db/queries.py:172).  INSERT ... ON CONFLICT
(episode_guid) DO UPDATE SET transcript_text, transcript_path. -/
def saveTranscript (db : List TranscriptRow) (now : Nat)
    (episode_guid transcript_text transcript_path : String) : List TranscriptRow :=
  if db.any (fun t => t.episode_guid == episode_guid) then
    db.map (fun t =>
      if t.episode_guid == episode_guid then
        { t with transcript_text := transcript_text, transcript_path := transcript_path }
      else t)
  else
    db ++ [{ episode_guid := episode_guid, transcript_text := transcript_text,
             transcript_path := transcript_path, created_at := now }]

/-- `save_summary` (src/db/queries.py:246).  INSERT ... ON CONFLICT
(item_id) DO UPDATE SET summary, key_topics, companies, tools, quotes,
raw_rating, final_rating.  The source consults no item status. -/
def saveSummary (db : List SummaryRow) (now : Nat) (item_id item_type summary key_topics
    companies tools quotes : String) (raw_rating final_rating : Int) : List SummaryRow :=
  if db.any (fun s => s.item_id == item_id) then
    db.map (fun s =>
      if s.item_id == item_id then
        { s with summary := summary, key_topics := key_topics, companies := companies,
                 tools := tools, quotes := quotes, raw_rating := raw_rating,
                 final_rating := final_rating }
      else s)
  else
    db ++ [{ item_id := item_id, item_type := item_type, summary := summary,
             key_topics := key_topics, companies := companies, tools := tools,
             quotes := quotes, raw_rating := raw_rating, final_rating := final_rating,
             created_at := now }]

/-- The legal-transition table of the specification (spec §4.2): the spec
side of the refinement comparison for the status-update operation.  The
code has no counterpart of this table. -/
def legalTransition : Status → Status → Bool
  | .pending, .in_progress => true
  | .in_progress, .completed => true
  | .in_progress, .failed => true
  | .pending, .failed => true
  | .failed, .pending => true
  | .pending, .skipped => true
  | .in_progress, .skipped => true
  | _, _ => false

/-- A sample stored episode used by concrete counterexamples. -/
def epCompleted : Episode :=
  { guid := "ep-1", feed_url := "https://feed", title := "Episode 1",
    publish_date := "2025-10-09", author := some "Host", audio_url := some "https://audio",
    video_url := none, status := .completed, error_reason := none,
    created_at := 0, updated_at := 0 }

/-- C1 counterexample: `completed → pending` is not in the legal-transition
table, yet `update_episode_status` applies it silently — the stored status
becomes `pending` and no error of any kind is signalled (the operation is
total and unconditional in the source). -/
theorem c1_counterexample :
    legalTransition .completed .pending = false ∧
    updateEpisodeStatus [epCompleted] 1 "ep-1" .pending none =
      [{ epCompleted with status := .pending, error_reason := none, updated_at := 1 }] := by
  constructor
  · rfl
  · rfl

/-- C1 (amended): the status-update operation validates nothing.  For every
stored status S and every target T — legal or illegal — it succeeds, stores
T, sets `error_reason` to the supplied value (`none` when absent, so any
transition into a non-failed state made without a reason clears it), and
refreshes `updated_at`.  No `InvalidTransition` rejection exists in the
code. -/
theorem c1_update_status_unconditional (db : List Episode) (now : Nat) (guid : String)
    (S T : Status) (er : Option String) (e : Episode) (he : e ∈ db)
    (hg : e.guid = guid) (hs : e.status = S) :
    { e with status := T, error_reason := er, updated_at := now }
        ∈ updateEpisodeStatus db now guid T er ∧
    ∀ x ∈ updateEpisodeStatus db now guid T er, x.guid = guid →
      x.status = T ∧ x.error_reason = er ∧ x.updated_at = now := by
  constructor
  · refine List.mem_map.mpr ⟨e, he, ?_⟩
    simp [hg]
  · intro x hx hxg
    rcases List.mem_map.mp hx with ⟨y, _, hy⟩
    by_cases h : y.guid == guid
    · simp [h] at hy
      subst hy
      simp
    · simp [h] at hy
      subst hy
      simp [beq_iff_eq] at h
      exact absurd hxg h

/-- Witness for C1 amended at a concrete illegal pair (completed → pending). -/
theorem c1_witness :
    { epCompleted with status := Status.pending, error_reason := none, updated_at := 1 }
        ∈ updateEpisodeStatus [epCompleted] 1 "ep-1" .pending none ∧
    ∀ x ∈ updateEpisodeStatus [epCompleted] 1 "ep-1" .pending none, x.guid = "ep-1" →
      x.status = .pending ∧ x.error_reason = none ∧ x.updated_at = 1 :=
  c1_update_status_unconditional [epCompleted] 1 "ep-1" .completed .pending none
    epCompleted (List.mem_singleton.mpr rfl) rfl rfl

/-- `handle` of the retry command (src/cli/retry.py:11): if an episode with
the id exists, UPDATE episodes SET status = pending, error_reason = NULL,
updated_at = now(); otherwise, if a newsletter with the id exists, the same
UPDATE on newsletters.  No current status is consulted. -/
def retryHandle (eps : List Episode) (ns : List Newsletter) (now : Nat) (item_id : String) :
    List Episode × List Newsletter :=
  if eps.any (fun e => e.guid == item_id) then
    (eps.map (fun e =>
      if e.guid == item_id then
        { e with status := .pending, error_reason := none, updated_at := now }
      else e), ns)
  else if ns.any (fun n => n.message_id == item_id) then
    (eps, ns.map (fun n =>
      if n.message_id == item_id then
        { n with status := .pending, error_reason := none, updated_at := now }
      else n))
  else (eps, ns)

/-- `handle` of the skip command (src/cli/skip.py:11): UPDATE episodes SET
status = skipped, updated_at = now() WHERE guid = ?; if no row matched, the
same UPDATE on newsletters.  `error_reason` is left as is and no current
status is consulted. -/
def skipHandle (eps : List Episode) (ns : List Newsletter) (now : Nat) (item_id : String) :
    List Episode × List Newsletter :=
  if eps.any (fun e => e.guid == item_id) then
    (eps.map (fun e =>
      if e.guid == item_id then { e with status := .skipped, updated_at := now } else e), ns)
  else if ns.any (fun n => n.message_id == item_id) then
    (eps, ns.map (fun n =>
      if n.message_id == item_id then { n with status := .skipped, updated_at := now }
      else n))
  else (eps, ns)

/-- C2, for both item kinds: upserting a present identity updates only
descriptive fields (title/audio_url/video_url for episodes,
subject/body_html/body_text/link for newsletters) and `updated_at`;
`status`, `error_reason` and `created_at` are untouched and rows of other
identities are unchanged; and upserting an absent identity twice with
identical input yields exactly one stored row whose lifecycle state is the
initial one (status pending, no error reason). -/
theorem c2_upsert_frame_and_idempotent (db : List Episode) (dbn : List Newsletter)
    (now1 now2 : Nat) (guid feed_url title publish_date : String)
    (author audio_url video_url : Option String)
    (message_id subject sender date : String) (body_html body_text link : Option String) :
    (db.any (fun e => e.guid == guid) = true →
      List.Forall₂ (fun e e1 =>
          e1.guid = e.guid ∧ e1.status = e.status ∧ e1.error_reason = e.error_reason ∧
          e1.created_at = e.created_at ∧
          (e.guid = guid → e1.title = title ∧ e1.audio_url = audio_url ∧
            e1.video_url = video_url ∧ e1.updated_at = now1) ∧
          (e.guid ≠ guid → e1 = e))
        db (upsertEpisode db now1 guid feed_url title publish_date author audio_url video_url)) ∧
    (db.any (fun e => e.guid == guid) = false →
      let db1 := upsertEpisode db now1 guid feed_url title publish_date author audio_url video_url
      let db2 := upsertEpisode db1 now2 guid feed_url title publish_date author audio_url video_url
      ((db2.filter (fun e => e.guid == guid)).length = 1 ∧
        ∀ x ∈ db2, x.guid = guid → x.status = .pending ∧ x.error_reason = none)) ∧
    (dbn.any (fun n => n.message_id == message_id) = true →
      List.Forall₂ (fun n n1 =>
          n1.message_id = n.message_id ∧ n1.status = n.status ∧
          n1.error_reason = n.error_reason ∧ n1.created_at = n.created_at ∧
          (n.message_id = message_id → n1.subject = subject ∧ n1.body_html = body_html ∧
            n1.body_text = body_text ∧ n1.link = link ∧ n1.updated_at = now1) ∧
          (n.message_id ≠ message_id → n1 = n))
        dbn (upsertNewsletter dbn now1 message_id subject sender date body_html body_text
          link)) ∧
    (dbn.any (fun n => n.message_id == message_id) = false →
      let dbn1 := upsertNewsletter dbn now1 message_id subject sender date body_html
        body_text link
      let dbn2 := upsertNewsletter dbn1 now2 message_id subject sender date body_html
        body_text link
      ((dbn2.filter (fun n => n.message_id == message_id)).length = 1 ∧
        ∀ x ∈ dbn2, x.message_id = message_id →
          x.status = .pending ∧ x.error_reason = none)) := by
  refine ⟨?_, ?_, ?_, ?_⟩
  · intro hpres
    unfold upsertEpisode
    rw [hpres]
    simp only [if_true]
    rw [List.forall₂_map_right_iff]
    rw [List.forall₂_same]
    intro e _
    by_cases h : e.guid = guid
    · simp [h]
    · simp [h]
  · intro habs
    have hnone : ∀ e ∈ db, (e.guid == guid) = false := by
      intro e he
      by_contra hc
      have : db.any (fun e => e.guid == guid) = true :=
        List.any_eq_true.mpr ⟨e, he, by simpa using hc⟩
      rw [habs] at this
      exact Bool.false_ne_true this
    intro db1 db2
    have hdb1 : db1 = db ++ [(⟨guid, feed_url, title, publish_date, author, audio_url,
        video_url, .pending, none, now1, now1⟩ : Episode)] := by
      show upsertEpisode db now1 guid feed_url title publish_date author audio_url video_url = _
      unfold upsertEpisode
      rw [habs]
      simp
    have hany1 : db1.any (fun e => e.guid == guid) = true := by
      rw [hdb1]
      refine List.any_eq_true.mpr ⟨_, List.mem_append_right _ (List.mem_singleton.mpr rfl), ?_⟩
      simp
    have hdb2 : db2 = db1.map (fun e =>
        if e.guid == guid then
          { e with title := title, audio_url := audio_url, video_url := video_url,
                   updated_at := now2 }
        else e) := by
      show upsertEpisode db1 now2 guid feed_url title publish_date author audio_url video_url = _
      unfold upsertEpisode
      rw [hany1]
      simp
    constructor
    · rw [hdb2, hdb1]
      rw [List.map_append, List.filter_append]
      have hmapdb : db.map (fun e =>
          if e.guid == guid then
            { e with title := title, audio_url := audio_url, video_url := video_url,
                     updated_at := now2 }
          else e) = db := by
        conv_rhs => rw [← List.map_id db]
        apply List.map_congr_left
        intro e he
        simp [hnone e he]
      rw [hmapdb]
      have hfil : db.filter (fun e => e.guid == guid) = [] := by
        rw [List.filter_eq_nil_iff]
        intro e he
        rw [hnone e he]
        exact Bool.false_ne_true
      rw [hfil]
      simp
    · intro x hx hxg
      rw [hdb2, hdb1] at hx
      rw [List.map_append] at hx
      rcases List.mem_append.mp hx with h | h
      · rcases List.mem_map.mp h with ⟨e, he, hfe⟩
        have hfe2 : e = x := by
          rw [← hfe]
          simp [hnone e he]
        subst hfe2
        have hne : ¬ (e.guid = guid) := by simpa using hnone e he
        exact absurd hxg hne
      · simp at h
        subst h
        constructor <;> rfl
  · intro hpres
    unfold upsertNewsletter
    rw [hpres]
    simp only [if_true]
    rw [List.forall₂_map_right_iff]
    rw [List.forall₂_same]
    intro n _
    by_cases h : n.message_id = message_id
    · simp [h]
    · simp [h]
  · intro habs
    have hnone : ∀ n ∈ dbn, (n.message_id == message_id) = false := by
      intro n hn
      by_contra hc
      have : dbn.any (fun n => n.message_id == message_id) = true :=
        List.any_eq_true.mpr ⟨n, hn, by simpa using hc⟩
      rw [habs] at this
      exact Bool.false_ne_true this
    intro dbn1 dbn2
    have hdb1 : dbn1 = dbn ++ [(⟨message_id, subject, sender, date, body_html, body_text,
        link, .pending, none, now1, now1⟩ : Newsletter)] := by
      show upsertNewsletter dbn now1 message_id subject sender date body_html body_text
        link = _
      unfold upsertNewsletter
      rw [habs]
      simp
    have hany1 : dbn1.any (fun n => n.message_id == message_id) = true := by
      rw [hdb1]
      refine List.any_eq_true.mpr ⟨_, List.mem_append_right _ (List.mem_singleton.mpr rfl), ?_⟩
      simp
    have hdb2 : dbn2 = dbn1.map (fun n =>
        if n.message_id == message_id then
          { n with subject := subject, body_html := body_html, body_text := body_text,
                   link := link, updated_at := now2 }
        else n) := by
      show upsertNewsletter dbn1 now2 message_id subject sender date body_html body_text
        link = _
      unfold upsertNewsletter
      rw [hany1]
      simp
    constructor
    · rw [hdb2, hdb1]
      rw [List.map_append, List.filter_append]
      have hmapdb : dbn.map (fun n =>
          if n.message_id == message_id then
            { n with subject := subject, body_html := body_html, body_text := body_text,
                     link := link, updated_at := now2 }
          else n) = dbn := by
        conv_rhs => rw [← List.map_id dbn]
        apply List.map_congr_left
        intro n hn
        simp [hnone n hn]
      rw [hmapdb]
      have hfil : dbn.filter (fun n => n.message_id == message_id) = [] := by
        rw [List.filter_eq_nil_iff]
        intro n hn
        rw [hnone n hn]
        exact Bool.false_ne_true
      rw [hfil]
      simp
    · intro x hx hxg
      rw [hdb2, hdb1] at hx
      rw [List.map_append] at hx
      rcases List.mem_append.mp hx with h | h
      · rcases List.mem_map.mp h with ⟨n, hn, hfn⟩
        have hfn2 : n = x := by
          rw [← hfn]
          simp [hnone n hn]
        subst hfn2
        have hne : ¬ (n.message_id = message_id) := by simpa using hnone n hn
        exact absurd hxg hne
      · simp at h
        subst h
        constructor <;> rfl

/-- A sample completed newsletter used by concrete inputs. -/
def nlCompleted : Newsletter :=
  { message_id := "msg-1", subject := "Weekly letter", sender := "a@example.com",
    date := "2025-10-08", body_html := some "<p>Hi</p>", body_text := some "Hello",
    link := none, status := .completed, error_reason := none,
    created_at := 0, updated_at := 0 }

/-- Witness for C2 at concrete inputs: re-discovering an already-completed
episode (and an already-completed newsletter) with an updated title or
subject leaves status completed and error_reason null, and a double insert
of a fresh identity of either kind yields one pending row. -/
theorem c2_witness :
    (List.Forall₂ (fun e e1 =>
        e1.guid = e.guid ∧ e1.status = e.status ∧ e1.error_reason = e.error_reason ∧
        e1.created_at = e.created_at ∧
        (e.guid = "ep-1" → e1.title = "New title" ∧ e1.audio_url = some "https://audio" ∧
          e1.video_url = none ∧ e1.updated_at = 7) ∧
        (e.guid ≠ "ep-1" → e1 = e))
      [epCompleted]
      (upsertEpisode [epCompleted] 7 "ep-1" "https://feed" "New title" "2025-10-09"
        (some "Host") (some "https://audio") none)) ∧
    (let db1 := upsertEpisode [] 7 "n-1" "https://feed" "T" "2025-10-10" none none none
     let db2 := upsertEpisode db1 8 "n-1" "https://feed" "T" "2025-10-10" none none none
     ((db2.filter (fun e => e.guid == "n-1")).length = 1 ∧
       ∀ x ∈ db2, x.guid = "n-1" → x.status = .pending ∧ x.error_reason = none)) ∧
    (List.Forall₂ (fun n n1 =>
        n1.message_id = n.message_id ∧ n1.status = n.status ∧
        n1.error_reason = n.error_reason ∧ n1.created_at = n.created_at ∧
        (n.message_id = "msg-1" → n1.subject = "New subject" ∧
          n1.body_html = some "<p>Hi</p>" ∧ n1.body_text = some "Hello" ∧
          n1.link = none ∧ n1.updated_at = 7) ∧
        (n.message_id ≠ "msg-1" → n1 = n))
      [nlCompleted]
      (upsertNewsletter [nlCompleted] 7 "msg-1" "New subject" "a@example.com" "2025-10-08"
        (some "<p>Hi</p>") (some "Hello") none)) ∧
    (let dbn1 := upsertNewsletter [] 7 "nl-2" "S" "x@y" "2025-10-10" none none none
     let dbn2 := upsertNewsletter dbn1 8 "nl-2" "S" "x@y" "2025-10-10" none none none
     ((dbn2.filter (fun n => n.message_id == "nl-2")).length = 1 ∧
       ∀ x ∈ dbn2, x.message_id = "nl-2" →
         x.status = .pending ∧ x.error_reason = none)) := by
  refine ⟨?_, ?_, ?_, ?_⟩
  · exact (c2_upsert_frame_and_idempotent [epCompleted] [] 7 8 "ep-1" "https://feed"
      "New title" "2025-10-09" (some "Host") (some "https://audio") none
      "m" "s" "x@y" "d" none none none).1 (by decide)
  · exact (c2_upsert_frame_and_idempotent [] [] 7 8 "n-1" "https://feed" "T" "2025-10-10"
      none none none "m" "s" "x@y" "d" none none none).2.1 (by decide)
  · have h := c2_upsert_frame_and_idempotent [] [nlCompleted] 7 8 "g" "f" "t" "d"
      none none none "msg-1" "New subject" "a@example.com" "2025-10-08"
      (some "<p>Hi</p>") (some "Hello") none
    exact h.2.2.1 (by decide)
  · have h := c2_upsert_frame_and_idempotent [] [] 7 8 "g" "f" "t" "d" none none none
      "nl-2" "S" "x@y" "2025-10-10" none none none
    exact h.2.2.2 (by decide)

/-- C10: the out-of-band commands consult no current status.  For an
episode stored with any status whatsoever, retry stores `pending` and
clears `error_reason`, and skip stores `skipped`; for a newsletter (when no
episode shares the id), the same holds on the newsletters table.  In both
commands `updated_at` is refreshed. -/
theorem c10_retry_skip_unconditional (eps : List Episode) (ns : List Newsletter) (now : Nat)
    (ide idn : String) (e : Episode) (he : e ∈ eps) (hge : e.guid = ide)
    (n : Newsletter) (hn : n ∈ ns) (hgn : n.message_id = idn)
    (hnoep : eps.any (fun x => x.guid == idn) = false) :
    (∀ x ∈ (retryHandle eps ns now ide).1, x.guid = ide →
        x.status = .pending ∧ x.error_reason = none ∧ x.updated_at = now) ∧
    (∀ x ∈ (skipHandle eps ns now ide).1, x.guid = ide →
        x.status = .skipped ∧ x.updated_at = now) ∧
    (∀ x ∈ (retryHandle eps ns now idn).2, x.message_id = idn →
        x.status = .pending ∧ x.error_reason = none ∧ x.updated_at = now) ∧
    (∀ x ∈ (skipHandle eps ns now idn).2, x.message_id = idn →
        x.status = .skipped ∧ x.updated_at = now) := by
  have hanye : eps.any (fun x => x.guid == ide) = true :=
    List.any_eq_true.mpr ⟨e, he, by simp [hge]⟩
  have hanyn : ns.any (fun x => x.message_id == idn) = true :=
    List.any_eq_true.mpr ⟨n, hn, by simp [hgn]⟩
  refine ⟨?_, ?_, ?_, ?_⟩
  · intro x hx hxg
    unfold retryHandle at hx
    rw [hanye] at hx
    simp only [if_true] at hx
    rcases List.mem_map.mp hx with ⟨y, _, hy⟩
    by_cases h : y.guid == ide
    · simp [h] at hy
      subst hy
      simp
    · simp [h] at hy
      subst hy
      simp [beq_iff_eq] at h
      exact absurd hxg h
  · intro x hx hxg
    unfold skipHandle at hx
    rw [hanye] at hx
    simp only [if_true] at hx
    rcases List.mem_map.mp hx with ⟨y, _, hy⟩
    by_cases h : y.guid == ide
    · simp [h] at hy
      subst hy
      simp
    · simp [h] at hy
      subst hy
      simp [beq_iff_eq] at h
      exact absurd hxg h
  · intro x hx hxg
    unfold retryHandle at hx
    rw [hnoep] at hx
    simp only [Bool.false_eq_true, if_false] at hx
    rw [hanyn] at hx
    simp only [if_true] at hx
    rcases List.mem_map.mp hx with ⟨y, _, hy⟩
    by_cases h : y.message_id == idn
    · simp [h] at hy
      subst hy
      simp
    · simp [h] at hy
      subst hy
      simp [beq_iff_eq] at h
      exact absurd hxg h
  · intro x hx hxg
    unfold skipHandle at hx
    rw [hnoep] at hx
    simp only [Bool.false_eq_true, if_false] at hx
    rw [hanyn] at hx
    simp only [if_true] at hx
    rcases List.mem_map.mp hx with ⟨y, _, hy⟩
    by_cases h : y.message_id == idn
    · simp [h] at hy
      subst hy
      simp
    · simp [h] at hy
      subst hy
      simp [beq_iff_eq] at h
      exact absurd hxg h

/-- Witness for C10 on a completed episode and a completed newsletter:
retry demotes both terminal rows to pending and skip forces both to
skipped. -/
theorem c10_witness :
    (∀ x ∈ (retryHandle [epCompleted] [nlCompleted] 3 "ep-1").1, x.guid = "ep-1" →
        x.status = .pending ∧ x.error_reason = none ∧ x.updated_at = 3) ∧
    (∀ x ∈ (skipHandle [epCompleted] [nlCompleted] 3 "ep-1").1, x.guid = "ep-1" →
        x.status = .skipped ∧ x.updated_at = 3) ∧
    (∀ x ∈ (retryHandle [epCompleted] [nlCompleted] 3 "msg-1").2, x.message_id = "msg-1" →
        x.status = .pending ∧ x.error_reason = none ∧ x.updated_at = 3) ∧
    (∀ x ∈ (skipHandle [epCompleted] [nlCompleted] 3 "msg-1").2, x.message_id = "msg-1" →
        x.status = .skipped ∧ x.updated_at = 3) :=
  c10_retry_skip_unconditional [epCompleted] [nlCompleted] 3 "ep-1" "msg-1"
    epCompleted (List.mem_singleton.mpr rfl) rfl
    nlCompleted (List.mem_singleton.mpr rfl) rfl (by decide)

/-- A sample stored episode that is still pending. -/
def epPending : Episode :=
  { epCompleted with guid := "ep-2", title := "Episode 2", status := .pending }

/-- C7 counterexample: the store holds an episode whose status is pending
(not completed), yet `save_summary` for that identity returns normally and
silently persists the summary row — it raises nothing, since the source
consults no item status at all. -/
theorem c7_counterexample :
    epPending.status ≠ .completed ∧
    saveSummary [] 5 epPending.guid "podcast" "sum" "[]" "[]" "[]" "[]" 3 3 =
      [{ item_id := "ep-2", item_type := "podcast", summary := "sum", key_topics := "[]",
         companies := "[]", tools := "[]", quotes := "[]", raw_rating := 3,
         final_rating := 3, created_at := 5 }] := by
  constructor
  · decide
  · rfl

/-- C7 (amended): `save_summary` never checks the target item's status.
For every stored item, completed or not, the call returns normally and the
summaries table afterwards contains a row for the item id carrying the
given payload. -/
theorem c7_save_summary_silent (eps : List Episode) (e : Episode) (he : e ∈ eps)
    (hne : e.status ≠ .completed) (ss : List SummaryRow) (now : Nat)
    (item_type summary key_topics companies tools quotes : String)
    (raw_rating final_rating : Int) :
    ∃ row ∈ saveSummary ss now e.guid item_type summary key_topics companies tools quotes
        raw_rating final_rating,
      row.item_id = e.guid ∧ row.summary = summary ∧ row.raw_rating = raw_rating ∧
      row.final_rating = final_rating := by
  unfold saveSummary
  by_cases hany : ss.any (fun s => s.item_id == e.guid)
  · rw [hany]
    simp only [if_true]
    rcases List.any_eq_true.mp hany with ⟨s, hs, hsg⟩
    refine ⟨_, List.mem_map.mpr ⟨s, hs, rfl⟩, ?_⟩
    simp [hsg]
    · simpa using hsg
  · rw [Bool.not_eq_true] at hany
    rw [hany]
    simp only [Bool.false_eq_true, if_false]
    exact ⟨_, List.mem_append_right _ (List.mem_singleton.mpr rfl), rfl, rfl, rfl, rfl⟩

/-- Witness for C7 amended at the concrete pending episode. -/
theorem c7_witness :
    ∃ row ∈ saveSummary [] 5 epPending.guid "podcast" "sum" "[]" "[]" "[]" "[]" 3 3,
      row.item_id = epPending.guid ∧ row.summary = "sum" ∧ row.raw_rating = 3 ∧
      row.final_rating = 3 :=
  c7_save_summary_silent [epPending] epPending (List.mem_singleton.mpr rfl) (by decide)
    [] 5 "podcast" "sum" "[]" "[]" "[]" "[]" 3 3

/-- The whitespace class of Python for ASCII text: the characters matched
by `\s` in re.sub and stripped by str.strip. -/
def isPySpace (c : Char) : Bool :=
  c == ' ' || c == '\t' || c == '\n' || c == '\r' || c == '\x0b' || c == '\x0c'

/-- Python str.strip on a character list: drop whitespace from both ends. -/
def stripList (l : List Char) : List Char :=
  ((l.dropWhile isPySpace).reverse.dropWhile isPySpace).reverse

/-- Python str.strip. -/
def pyStrip (s : String) : String := String.mk (stripList s.data)

/-- Python str.splitlines on a character list, for the newline forms that
occur in note files (LF, CRLF, CR); no trailing empty line is produced. -/
def splitlinesAux : List Char → List Char → List (List Char)
  | [], [] => []
  | [], acc => [acc.reverse]
  | '\r' :: '\n' :: rest, acc => acc.reverse :: splitlinesAux rest []
  | '\r' :: rest, acc => acc.reverse :: splitlinesAux rest []
  | '\n' :: rest, acc => acc.reverse :: splitlinesAux rest []
  | c :: rest, acc => splitlinesAux rest (c :: acc)

/-- Python line.partition over the first colon, keeping the part after it
(empty when no colon occurs). -/
def afterFirstColon : List Char → List Char
  | [] => []
  | ':' :: rest => rest
  | _ :: rest => afterFirstColon rest

/-- Python line.lower().startswith("rating:") on a line of characters. -/
def lineStartsWithRating (line : List Char) : Bool :=
  List.isPrefixOf "rating:".data (line.map Char.toLower)

/-- `check_manual_edit` applied to a file's content
(src/export/obsidian.py:17): scan the lines for the first one whose
lowercase form starts with "rating:"; the note counts as manually edited
exactly when that line's value after the colon is non-empty after
stripping; with no such line the loop falls through to False. -/
def checkManualEditContent (content : String) : Bool :=
  match (splitlinesAux content.data []).find? lineStartsWithRating with
  | none => false
  | some line => !(stripList (afterFirstColon line)).isEmpty

/-- The filesystem as a partial map from paths to file contents. -/
def FileSys : Type := String → Option String

/-- `check_manual_edit` (src/export/obsidian.py:17): a missing file is
never a manual edit. -/
def checkManualEdit (fs : FileSys) (path : String) : Bool :=
  match fs path with
  | none => false
  | some content => checkManualEditContent content

/-- `write_note` (src/export/obsidian.py:153): when edit checking is on and
the existing file has the manual-edit marker, skip and return False leaving
the filesystem untouched; otherwise write the content and return True. -/
def writeNote (fs : FileSys) (path content : String) (check_edit : Bool := true) :
    Bool × FileSys :=
  if check_edit && checkManualEdit fs path then
    (false, fs)
  else
    (true, fun p => if p == path then some content else fs p)

/-- C3: if the existing file at the output path carries a non-empty rating
marker, `write_note` leaves the filesystem (hence that file's bytes)
unchanged and returns the skipped signal False; if the marker is empty or
absent, or the file does not exist, it returns the written signal True, the
path afterwards holds exactly the new content, and every other path is
untouched. -/
theorem c3_write_note_manual_edit (fs : FileSys) (path content : String) :
    (checkManualEdit fs path = true → writeNote fs path content true = (false, fs)) ∧
    (checkManualEdit fs path = false →
      (writeNote fs path content true).1 = true ∧
      (writeNote fs path content true).2 path = some content ∧
      ∀ q, q ≠ path → (writeNote fs path content true).2 q = fs q) := by
  constructor
  · intro hedit
    unfold writeNote
    rw [hedit]
    simp
  · intro hedit
    unfold writeNote
    rw [hedit]
    refine ⟨rfl, by simp, ?_⟩
    intro q hq
    have hqp : (q == path) = false := by simpa using hq
    show (if (q == path) = true then some content else fs q) = fs q
    rw [hqp]
    simp

/-- A concrete filesystem: one note whose rating field is filled (a manual
edit) and one whose rating field is empty. -/
def sampleFS : FileSys := fun p =>
  if p == "edited.md" then
    some "---\ntitle: T\nrating: 5\n---\nbody"
  else if p == "fresh.md" then
    some "---\ntitle: T\nrating:\n---\nbody"
  else none

/-- Witness for C3: the manually edited note is skipped with the
filesystem untouched; the note with the empty rating field is overwritten
and other paths stay as they were. -/
theorem c3_witness :
    writeNote sampleFS "edited.md" "new content" true = (false, sampleFS) ∧
    ((writeNote sampleFS "fresh.md" "new content" true).1 = true ∧
      (writeNote sampleFS "fresh.md" "new content" true).2 "fresh.md" = some "new content" ∧
      ∀ q, q ≠ "fresh.md" → (writeNote sampleFS "fresh.md" "new content" true).2 q =
        sampleFS q) :=
  ⟨(c3_write_note_manual_edit sampleFS "edited.md" "new content").1 (by decide),
   (c3_write_note_manual_edit sampleFS "fresh.md" "new content").2 (by decide)⟩

/-- The character class of the first re.sub in `sanitize_filename`
(src/export/obsidian.py:185): backslash, slash, NUL, tab, LF, CR and the
filesystem-illegal punctuation. -/
def isIllegalFilenameChar (c : Char) : Bool :=
  c == '\\' || c == '/' || c == '\x00' || c == '\t' || c == '\n' || c == '\r' ||
  c == ':' || c == '*' || c == '?' || c == '"' || c == '<' || c == '>' || c == '|'

/-- re.sub over whitespace runs: every maximal run of Python whitespace
becomes a single space.  The flag records whether the previous character
belonged to a run. -/
def collapseAux : Bool → List Char → List Char
  | _, [] => []
  | prevSpace, c :: rest =>
    if isPySpace c then
      if prevSpace then collapseAux true rest else ' ' :: collapseAux true rest
    else c :: collapseAux false rest

/-- `sanitize_filename` (src/export/obsidian.py:178): replace illegal
characters with underscore, collapse whitespace runs, strip both ends, and
only then truncate to 180 characters. -/
def sanitizeFilename (name : String) : String :=
  let replaced := name.data.map (fun c => if isIllegalFilenameChar c then '_' else c)
  let collapsed := collapseAux false replaced
  let stripped := stripList collapsed
  String.mk (stripped.take 180)

theorem mem_collapseAux (l : List Char) : ∀ (b : Bool) (c : Char),
    c ∈ collapseAux b l → c = ' ' ∨ c ∈ l := by
  induction l with
  | nil =>
    intro b c hc
    simp [collapseAux] at hc
  | cons x rest ih =>
    intro b c hc
    unfold collapseAux at hc
    by_cases hx : isPySpace x
    · rw [if_pos hx] at hc
      by_cases hb : b
      · subst hb
        simp only [if_true] at hc
        rcases ih true c hc with h | h
        · exact Or.inl h
        · exact Or.inr (List.mem_cons_of_mem x h)
      · rw [Bool.not_eq_true] at hb
        subst hb
        simp only [Bool.false_eq_true, if_false] at hc
        rcases List.mem_cons.mp hc with h | h
        · exact Or.inl h
        · rcases ih true c h with h2 | h2
          · exact Or.inl h2
          · exact Or.inr (List.mem_cons_of_mem x h2)
    · rw [if_neg hx] at hc
      rcases List.mem_cons.mp hc with h | h
      · exact Or.inr (by rw [h]; exact List.mem_cons_self x rest)
      · rcases ih false c h with h2 | h2
        · exact Or.inl h2
        · exact Or.inr (List.mem_cons_of_mem x h2)

theorem mem_stripList (l : List Char) (c : Char) (hc : c ∈ stripList l) : c ∈ l := by
  unfold stripList at hc
  rw [List.mem_reverse] at hc
  have h1 := (List.dropWhile_sublist isPySpace (l := (l.dropWhile isPySpace).reverse)).mem hc
  rw [List.mem_reverse] at h1
  exact (List.dropWhile_sublist isPySpace (l := l)).mem h1

theorem head_dropWhile_false (p : Char → Bool) (l : List Char) (c : Char)
    (h : (l.dropWhile p).head? = some c) : p c = false := by
  induction l with
  | nil => simp [List.dropWhile] at h
  | cons x rest ih =>
    rw [List.dropWhile_cons] at h
    by_cases hx : p x
    · rw [if_pos hx] at h
      exact ih h
    · rw [if_neg hx] at h
      simp at h
      subst h
      exact Bool.not_eq_true _ ▸ (by simpa using hx)

theorem head_append_left (A B : List Char) (c : Char) (h : A.head? = some c) :
    (A ++ B).head? = some c := by
  cases A with
  | nil => simp at h
  | cons a t => simpa using h

theorem head_stripList (l : List Char) (c : Char)
    (h : (stripList l).head? = some c) : isPySpace c = false := by
  have hsplit : stripList l ++ ((l.dropWhile isPySpace).reverse.takeWhile isPySpace).reverse =
      l.dropWhile isPySpace := by
    unfold stripList
    rw [← List.reverse_append, List.takeWhile_append_dropWhile, List.reverse_reverse]
  have hhead : (l.dropWhile isPySpace).head? = some c := by
    rw [← hsplit]
    exact head_append_left _ _ _ h
  exact head_dropWhile_false _ _ _ hhead

theorem head_take (n : Nat) (l : List Char) (c : Char)
    (h : (l.take (n + 1)).head? = some c) : l.head? = some c := by
  cases l with
  | nil => simp at h
  | cons a t => simpa using h

/-- C8 (amended): `sanitize_filename` is a pure deterministic function; its
output is at most 180 characters, contains none of the illegal characters,
and never starts with whitespace.  (Trailing whitespace is possible: the
strip happens before the 180-character truncation, which may cut the string
directly after an interior space.) -/
theorem c8_sanitize_properties (name : String) :
    (∀ t : String, name = t → sanitizeFilename name = sanitizeFilename t) ∧
    (sanitizeFilename name).length ≤ 180 ∧
    (∀ c ∈ (sanitizeFilename name).data, isIllegalFilenameChar c = false) ∧
    (∀ c, (sanitizeFilename name).data.head? = some c → isPySpace c = false) := by
  refine ⟨fun t ht => by rw [ht], ?_, ?_, ?_⟩
  · have hql : (sanitizeFilename name).length =
        ((stripList (collapseAux false (name.data.map
          (fun c => if isIllegalFilenameChar c then '_' else c)))).take 180).length := rfl
    rw [hql, List.length_take]
    exact min_le_left _ _
  · intro c hc
    simp only [sanitizeFilename, String.data] at hc
    have hc2 := List.take_subset _ _ hc
    have hc3 := mem_stripList _ _ hc2
    rcases mem_collapseAux _ _ _ hc3 with h | h
    · rw [h]
      rfl
    · rcases List.mem_map.mp h with ⟨x, _, hx⟩
      by_cases hill : isIllegalFilenameChar x
      · rw [if_pos hill] at hx
        rw [← hx]
        rfl
      · rw [if_neg hill] at hx
        rw [← hx]
        exact Bool.not_eq_true _ ▸ (by simpa using hill)
  · intro c hc
    simp only [sanitizeFilename, String.data] at hc
    have hc2 : ((stripList (collapseAux false (name.data.map
        (fun c => if isIllegalFilenameChar c then '_' else c)))).take (179 + 1)).head? =
        some c := hc
    exact head_stripList _ _ (head_take _ _ _ hc2)

/-- Witness for C8 amended at a concrete input. -/
theorem c8_witness :
    sanitizeFilename "a<b " = sanitizeFilename "a<b " ∧
    (sanitizeFilename "a<b ").length ≤ 180 ∧
    isIllegalFilenameChar 'a' = false ∧ isPySpace 'a' = false := by
  obtain ⟨hdet, hlen, hchars, hhead⟩ := c8_sanitize_properties "a<b "
  exact ⟨hdet "a<b " rfl, hlen, hchars 'a' (by decide), hhead 'a' (by decide)⟩

/-- A title of 179 letters, a space, then one more letter: sanitization
leaves it 181 characters long after the strip, and the final truncation
cuts right after the space. -/
def c8input : String := String.mk (List.replicate 179 'a' ++ [' ', 'b'])

/-- C8 counterexample: the claim says the output never has trailing
whitespace, but on `c8input` the output of `sanitize_filename` is 180
characters ending in a space, because stripping precedes truncation in the
source. -/
theorem c8_counterexample :
    (sanitizeFilename c8input).length = 180 ∧
    (sanitizeFilename c8input).data.getLast? = some ' ' ∧
    isPySpace ' ' = true := by
  refine ⟨?_, ?_, rfl⟩
  · rfl
  · rfl

/-- Default for `max_retries_audio` (src/config.py:125). -/
def maxRetriesAudioDefault : Nat := 3

/-- Default for `backoff_base` in seconds (src/config.py:127). -/
def backoffBaseDefault : Nat := 60

/-- The loop body of `retry_with_backoff` (src/utils/retry.py:29):
`for attempt in range(max_retries + 1)` with `left` attempts remaining
after the current one.  The wrapped call is a function from the attempt
index to its outcome; an exception is an `Except.error` with the message.
Returns the final outcome, the list of waits performed (in seconds), and
the number of attempts made.  When no attempt is left the exception of the
final attempt is re-raised. -/
def runRetryAux (f : Nat → Except String Unit) (base : Nat) :
    Nat → Nat → Except String Unit × List Nat × Nat
  | attempt, 0 => (f attempt, [], 1)
  | attempt, left + 1 =>
    match f attempt with
    | .ok a => (.ok a, [], 1)
    | .error _ =>
      let r := runRetryAux f base (attempt + 1) left
      (r.1, base * 2 ^ attempt :: r.2.1, r.2.2 + 1)

/-- `retry_with_backoff(max_retries, backoff_base)` applied to a wrapped
call, as it wraps `download_audio` (src/process/audio.py:14). -/
def retryWithBackoff (f : Nat → Except String Unit) (maxRetries base : Nat) :
    Except String Unit × List Nat × Nat :=
  runRetryAux f base 0 maxRetries

/-- A wrapped call that raises on every attempt. -/
def alwaysFail : Nat → Except String Unit := fun _ => .error "boom"

/-- C9 counterexample: with the default configuration
(max_retries_audio = 3) the wrapper makes 4 attempts in total on an
always-failing call, not the 3 the claim states, because the loop runs
`range(max_retries + 1)` times. -/
theorem c9_counterexample :
    (retryWithBackoff alwaysFail maxRetriesAudioDefault backoffBaseDefault).2.2 = 4 ∧
    (4 : Nat) ≠ 3 := by
  constructor
  · rfl
  · decide

theorem runRetryAux_allFail (f : Nat → Except String Unit) (base : Nat) :
    ∀ (left attempt : Nat), (∀ i, i ≤ left → ∃ e, f (attempt + i) = .error e) →
      runRetryAux f base attempt left =
        (f (attempt + left), (List.range left).map (fun i => base * 2 ^ (attempt + i)),
          left + 1) := by
  intro left
  induction left with
  | zero =>
    intro attempt _
    simp [runRetryAux]
  | succ left ih =>
    intro attempt h
    obtain ⟨e, he⟩ := h 0 (Nat.zero_le _)
    rw [Nat.add_zero] at he
    have hstep := ih (attempt + 1) (fun i hi => by
      have := h (i + 1) (Nat.succ_le_succ hi)
      rwa [Nat.add_comm i 1, ← Nat.add_assoc] at this)
    unfold runRetryAux
    rw [he]
    simp only [hstep]
    refine Prod.ext ?_ (Prod.ext ?_ ?_)
    · show f (attempt + 1 + left) = f (attempt + (left + 1))
      congr 1
      omega
    · show base * 2 ^ attempt :: (List.range left).map (fun i => base * 2 ^ (attempt + 1 + i)) =
        (List.range (left + 1)).map (fun i => base * 2 ^ (attempt + i))
      rw [List.range_succ_eq_map, List.map_cons, List.map_map]
      refine congrArg₂ _ (by rw [Nat.add_zero]) ?_
      apply List.map_congr_left
      intro i _
      show base * 2 ^ (attempt + 1 + i) = base * 2 ^ (attempt + (i + 1))
      congr 2
      omega
    · rfl

theorem runRetryAux_okAt (f : Nat → Except String Unit) (base : Nat) :
    ∀ (k left attempt : Nat) (a : Unit), k ≤ left →
      (∀ i, i < k → ∃ e, f (attempt + i) = .error e) → f (attempt + k) = .ok a →
      runRetryAux f base attempt left =
        (.ok a, (List.range k).map (fun i => base * 2 ^ (attempt + i)), k + 1) := by
  intro k
  induction k with
  | zero =>
    intro left attempt a _ _ hok
    rw [Nat.add_zero] at hok
    cases left with
    | zero => simp [runRetryAux, hok]
    | succ left => simp [runRetryAux, hok]
  | succ k ih =>
    intro left attempt a hkl hfail hok
    cases left with
    | zero => exact absurd hkl (by omega)
    | succ left =>
      obtain ⟨e, he⟩ := hfail 0 (Nat.succ_pos _)
      rw [Nat.add_zero] at he
      have hstep := ih left (attempt + 1) a (by omega)
        (fun i hi => by
          have := hfail (i + 1) (by omega)
          rwa [Nat.add_comm i 1, ← Nat.add_assoc] at this)
        (by
          have harr : attempt + 1 + k = attempt + (k + 1) := by omega
          rw [harr]
          exact hok)
      unfold runRetryAux
      rw [he]
      simp only [hstep]
      refine Prod.ext rfl (Prod.ext ?_ rfl)
      show base * 2 ^ attempt :: (List.range k).map (fun i => base * 2 ^ (attempt + 1 + i)) =
        (List.range (k + 1)).map (fun i => base * 2 ^ (attempt + i))
      rw [List.range_succ_eq_map, List.map_cons, List.map_map]
      refine congrArg₂ _ (by rw [Nat.add_zero]) ?_
      apply List.map_congr_left
      intro i _
      show base * 2 ^ (attempt + 1 + i) = base * 2 ^ (attempt + (i + 1))
      congr 2
      omega

/-- C9 (amended): with the default configuration the wrapper around the
audio download makes up to 4 attempts in total (one initial try plus
max_retries_audio = 3 retries), retrying on any exception; the wait before
retry n (the first wait being n = 0) is base * 2^n seconds; when every
attempt raises, 4 attempts are made, the waits are base, 2·base and
4·base, and the exception of the final attempt propagates; when attempt k
is the first to succeed, k+1 attempts are made and only the first k waits
occur. -/
theorem c9_retry_backoff (base : Nat) (f : Nat → Except String Unit) :
    ((∀ n, n ≤ maxRetriesAudioDefault → ∃ e, f n = .error e) →
      retryWithBackoff f maxRetriesAudioDefault base =
        (f 3, [base * 1, base * 2, base * 4], 4)) ∧
    (∀ k a, k ≤ maxRetriesAudioDefault → (∀ n, n < k → ∃ e, f n = .error e) →
      f k = .ok a →
      retryWithBackoff f maxRetriesAudioDefault base =
        (.ok a, (List.range k).map (fun n => base * 2 ^ n), k + 1)) := by
  constructor
  · intro h
    have := runRetryAux_allFail f base 3 0 (fun i hi => by simpa using h i hi)
    rw [retryWithBackoff, show maxRetriesAudioDefault = 3 from rfl, this]
    norm_num [List.range_succ]
  · intro k a hk hfail hok
    have := runRetryAux_okAt f base k maxRetriesAudioDefault 0 a hk
      (fun i hi => by simpa using hfail i hi) (by simpa using hok)
    rw [retryWithBackoff, this]
    refine congrArg _ (congrArg₂ _ ?_ rfl)
    apply List.map_congr_left
    intro i _
    rw [Nat.zero_add]

/-- A wrapped call that raises twice, then succeeds. -/
def failTwice : Nat → Except String Unit :=
  fun n => if n < 2 then .error "transient" else .ok ()

/-- Witness for C9 amended: the always-failing call exhausts all 4
attempts with waits 60, 120, 240 and propagates the last error; the call
succeeding on its third attempt makes 3 attempts with waits 60, 120. -/
theorem c9_witness :
    retryWithBackoff alwaysFail maxRetriesAudioDefault 60 =
      (alwaysFail 3, [60 * 1, 60 * 2, 60 * 4], 4) ∧
    retryWithBackoff failTwice maxRetriesAudioDefault 60 =
      (.ok (), (List.range 2).map (fun n => 60 * 2 ^ n), 2 + 1) :=
  ⟨(c9_retry_backoff 60 alwaysFail).1 (fun n _ => ⟨"boom", rfl⟩),
   (c9_retry_backoff 60 failTwice).2 2 () (by decide)
     (fun n hn => ⟨"transient", by simp [failTwice, hn]⟩) rfl⟩

/-- Lexicographic order on strings by code point, as the store compares
TEXT columns in ORDER BY (the claims do not depend on the order; it is
kept for faithfulness of the queries). -/
def charListLt : List Char → List Char → Bool
  | [], [] => false
  | [], _ :: _ => true
  | _ :: _, [] => false
  | a :: as, b :: bs =>
    if a.toNat < b.toNat then true
    else if b.toNat < a.toNat then false
    else charListLt as bs

def strLt (a b : String) : Bool := charListLt a.data b.data

/-- Insert into a list sorted descending by a string key. -/
def insertDescBy (key : α → String) (x : α) : List α → List α
  | [] => [x]
  | y :: ys => if strLt (key y) (key x) then x :: y :: ys else y :: insertDescBy key x ys

/-- ORDER BY key DESC. -/
def sortDescBy (key : α → String) (l : List α) : List α :=
  l.foldr (insertDescBy key) []

/-- The LIMIT handling of the query helpers: the clause is appended only
under `if limit:`, so both None and 0 mean no limit. -/
def applyLimit (limit : Option Nat) (l : List α) : List α :=
  match limit with
  | none => l
  | some 0 => l
  | some (n + 1) => l.take (n + 1)

/-- `get_pending_episodes` (src/db/queries.py:134): status pending, ordered
by publish_date descending, capped by limit. -/
def getPendingEpisodes (db : List Episode) (limit : Option Nat) : List Episode :=
  applyLimit limit (sortDescBy (fun e => e.publish_date)
    (db.filter (fun e => e.status == Status.pending)))

/-- `get_pending_newsletters` (src/db/queries.py:153). -/
def getPendingNewsletters (db : List Newsletter) (limit : Option Nat) : List Newsletter :=
  applyLimit limit (sortDescBy (fun n => n.date)
    (db.filter (fun n => n.status == Status.pending)))

/-- `get_completed_episodes_needing_summary` (src/db/queries.py:195):
INNER JOIN transcripts, LEFT JOIN summaries on item_type podcast, keeping
completed episodes with no summary row, ordered by publish_date
descending. -/
def getCompletedEpisodesNeedingSummary (eps : List Episode) (ts : List TranscriptRow)
    (ss : List SummaryRow) (limit : Option Nat) : List (Episode × TranscriptRow) :=
  applyLimit limit (sortDescBy (fun pr => pr.1.publish_date)
    ((eps.flatMap (fun e =>
        (ts.filter (fun t => t.episode_guid == e.guid)).map (fun t => (e, t)))).filter
      (fun pr => pr.1.status == Status.completed &&
        !(ss.any (fun s => s.item_id == pr.1.guid && s.item_type == "podcast")))))

/-- `get_completed_newsletters_needing_summary` (src/db/queries.py:221). -/
def getCompletedNewslettersNeedingSummary (ns : List Newsletter) (ss : List SummaryRow)
    (limit : Option Nat) : List Newsletter :=
  applyLimit limit (sortDescBy (fun n => n.date)
    (ns.filter (fun n => n.status == Status.completed &&
      !(ss.any (fun s => s.item_id == n.message_id && s.item_type == "newsletter")))))

/-- An entry of the per-newsletter digest data persisted by the
newsletter stage for later digest rendering. -/
structure DigestEntry where
  message_id : String
  subject : String
  preview : String
  source_link : Option String
deriving DecidableEq, Repr

/-- Modelled from the spec: `upsert_newsletter_digest_entry` is imported by
src/cli/process_newsletters.py from src/db/queries.py but its definition is
absent from src; per spec §4.3 the newsletter stage persists "a short
preview string for digest use", keyed by the newsletter identity, so this
is an upsert on message_id. -/
def upsertNewsletterDigestEntry (db : List DigestEntry)
    (message_id subject preview : String) (source_link : Option String) : List DigestEntry :=
  if db.any (fun d => d.message_id == message_id) then
    db.map (fun d =>
      if d.message_id == message_id then
        { d with subject := subject, preview := preview, source_link := source_link }
      else d)
  else
    db ++ [{ message_id := message_id, subject := subject, preview := preview,
             source_link := source_link }]

/-- The whole item store. -/
structure DB where
  episodes : List Episode
  newsletters : List Newsletter
  transcripts : List TranscriptRow
  summaries : List SummaryRow
  digests : List DigestEntry
deriving DecidableEq, Repr

/-- `EpisodeRecord` (src/db/repositories/episodes.py:16): the typed
snapshot row the podcast processor iterates over. -/
structure EpisodeRecord where
  guid : String
  title : String
  feed_url : String
  publish_date : String
  audio_url : Option String
  author : Option String
deriving DecidableEq, Repr

/-- Row-to-record conversion in `EpisodeRepository.get_pending`
(src/db/repositories/episodes.py:34). -/
def toEpisodeRecord (e : Episode) : EpisodeRecord :=
  { guid := e.guid, title := e.title, feed_url := e.feed_url,
    publish_date := e.publish_date, audio_url := e.audio_url, author := e.author }

/-- The terminal status and error reason the audio stage commits for one
record, given the record's audio URL and the outcome of the fallible
download-transcribe-persist work. -/
def podcastOutcome (work : EpisodeRecord → Except String String) (r : EpisodeRecord) :
    Status × Option String :=
  match r.audio_url with
  | none => (.failed, some "No audio URL")
  | some _ =>
    match work r with
    | .error m => (.failed, some m)
    | .ok _ => (.completed, none)

/-- One iteration of `PodcastProcessor.process_pending`
(src/services/podcast_processor.py:41): missing audio URL fails
immediately without claiming; otherwise the item is claimed in_progress,
the download/transcribe work runs (any exception is its error message),
the transcript is persisted on success, and the terminal status is
committed. -/
def processEpisodeOne (work : EpisodeRecord → Except String String) (now : Nat)
    (db : DB) (r : EpisodeRecord) : DB :=
  match r.audio_url with
  | none =>
    { db with episodes := (updateEpisodeStatus db.episodes now r.guid Status.failed
        (some "No audio URL")) }
  | some _ =>
    let db1 := { db with episodes := (updateEpisodeStatus db.episodes now r.guid
        Status.in_progress none) }
    match work r with
    | .error m =>
      { db1 with episodes := (updateEpisodeStatus db1.episodes now r.guid Status.failed
          (some m)) }
    | .ok text =>
      let db2 := { db1 with transcripts := (saveTranscript db1.transcripts now r.guid text
          (r.guid ++ ".json")) }
      { db2 with episodes := (updateEpisodeStatus db2.episodes now r.guid
          Status.completed none) }

/-- `PodcastProcessor.process_pending` (src/services/podcast_processor.py:36):
snapshot the pending episodes once, then fold the per-item step over the
snapshot. -/
def processPendingEpisodes (work : EpisodeRecord → Except String String) (now : Nat)
    (db : DB) (limit : Option Nat) : DB :=
  ((getPendingEpisodes db.episodes limit).map toEpisodeRecord).foldl
    (processEpisodeOne work now) db

/-- The terminal status and error reason the newsletter stage commits for
one pending newsletter. -/
def newsletterOutcome (work : Newsletter → Except String String) (n : Newsletter) :
    Status × Option String :=
  match work n with
  | .error m => (.failed, some m)
  | .ok _ => (.completed, none)

/-- One iteration of the process-newsletters loop
(src/cli/process_newsletters.py:28): claim in_progress, run the fallible
parse-and-persist work, on success upsert the digest entry (preview built
by `build_preview`, absent from src, passed as a parameter) and complete;
on exception commit failed with the message. -/
def processNewsletterOne (work : Newsletter → Except String String)
    (buildPreview : String → String) (now : Nat) (db : DB) (n : Newsletter) : DB :=
  let db1 := { db with newsletters := (updateNewsletterStatus db.newsletters now n.message_id
      Status.in_progress none) }
  match work n with
  | .error m =>
    { db1 with newsletters := (updateNewsletterStatus db1.newsletters now n.message_id
        Status.failed (some m)) }
  | .ok parsed =>
    let db2 := { db1 with digests := (upsertNewsletterDigestEntry db1.digests n.message_id
        n.subject (buildPreview parsed) n.link) }
    { db2 with newsletters := (updateNewsletterStatus db2.newsletters now n.message_id
        Status.completed none) }

/-- The process-newsletters command loop (src/cli/process_newsletters.py:18). -/
def processPendingNewsletters (work : Newsletter → Except String String)
    (buildPreview : String → String) (now : Nat) (db : DB) (limit : Option Nat) : DB :=
  (getPendingNewsletters db.newsletters limit).foldl
    (processNewsletterOne work buildPreview now) db

theorem processEpisodeOne_episodes (work : EpisodeRecord → Except String String) (now : Nat)
    (db : DB) (r : EpisodeRecord) :
    (processEpisodeOne work now db r).episodes =
      db.episodes.map (fun e =>
        if e.guid == r.guid then
          { e with status := (podcastOutcome work r).1,
                   error_reason := (podcastOutcome work r).2, updated_at := now }
        else e) := by
  cases hu : r.audio_url with
  | none =>
    simp only [processEpisodeOne, podcastOutcome, hu, updateEpisodeStatus]
  | some u =>
    cases hw : work r with
    | error m =>
      simp only [processEpisodeOne, podcastOutcome, hu, hw, updateEpisodeStatus, List.map_map]
      apply List.map_congr_left
      intro e _
      by_cases h : e.guid == r.guid
      · simp [Function.comp, h]
      · simp [Function.comp, h]
    | ok text =>
      simp only [processEpisodeOne, podcastOutcome, hu, hw, updateEpisodeStatus, List.map_map]
      apply List.map_congr_left
      intro e _
      by_cases h : e.guid == r.guid
      · simp [Function.comp, h]
      · simp [Function.comp, h]

theorem mem_processEpisodeOne_of_ne (work : EpisodeRecord → Except String String) (now : Nat)
    (db : DB) (r : EpisodeRecord) (x : Episode)
    (hx : x ∈ (processEpisodeOne work now db r).episodes) (hne : x.guid ≠ r.guid) :
    x ∈ db.episodes := by
  rw [processEpisodeOne_episodes] at hx
  rcases List.mem_map.mp hx with ⟨e, he, hfe⟩
  by_cases h : e.guid == r.guid
  · rw [if_pos h] at hfe
    exfalso
    apply hne
    rw [← hfe]
    simpa using h
  · rw [if_neg h] at hfe
    subst hfe
    exact he

theorem foldl_processEpisode_untouched (work : EpisodeRecord → Except String String)
    (now : Nat) :
    ∀ (l : List EpisodeRecord) (db : DB) (g : String), (∀ r ∈ l, r.guid ≠ g) →
      ∀ x ∈ (l.foldl (processEpisodeOne work now) db).episodes, x.guid = g →
        x ∈ db.episodes := by
  intro l
  induction l with
  | nil =>
    intro db g _ x hx _
    simpa using hx
  | cons r rest ih =>
    intro db g hne x hx hxg
    have hx2 := ih (processEpisodeOne work now db r) g
      (fun t ht => hne t (List.mem_cons_of_mem r ht)) x (by simpa using hx) hxg
    refine mem_processEpisodeOne_of_ne work now db r x hx2 ?_
    rw [hxg]
    exact (hne r (List.mem_cons_self r rest)).symm

theorem foldl_processEpisode_outcome (work : EpisodeRecord → Except String String)
    (now : Nat) :
    ∀ (l : List EpisodeRecord) (db : DB), l.Pairwise (fun a b => a.guid ≠ b.guid) →
      ∀ r ∈ l, ∀ x ∈ (l.foldl (processEpisodeOne work now) db).episodes, x.guid = r.guid →
        x.status = (podcastOutcome work r).1 ∧ x.error_reason = (podcastOutcome work r).2 ∧
        x.updated_at = now := by
  intro l
  induction l with
  | nil =>
    intro db _ r hr
    simp at hr
  | cons r0 rest ih =>
    intro db hp r hr x hx hxg
    rcases List.pairwise_cons.mp hp with ⟨hp0, hptail⟩
    rcases List.mem_cons.mp hr with h | h
    · subst h
      have hx2 : x ∈ (processEpisodeOne work now db r).episodes := by
        refine foldl_processEpisode_untouched work now rest _ r.guid
          (fun t ht => (hp0 t ht).symm) x ?_ hxg
        simpa using hx
      rw [processEpisodeOne_episodes] at hx2
      rcases List.mem_map.mp hx2 with ⟨e, _, hfe⟩
      by_cases h2 : e.guid == r.guid
      · rw [if_pos h2] at hfe
        rw [← hfe]
        exact ⟨rfl, rfl, rfl⟩
      · rw [if_neg h2] at hfe
        subst hfe
        exact absurd hxg (by simpa using h2)
    · exact ih (processEpisodeOne work now db r0) hptail r h x (by simpa using hx) hxg

theorem processNewsletterOne_newsletters (work : Newsletter → Except String String)
    (buildPreview : String → String) (now : Nat) (db : DB) (n : Newsletter) :
    (processNewsletterOne work buildPreview now db n).newsletters =
      db.newsletters.map (fun y =>
        if y.message_id == n.message_id then
          { y with status := (newsletterOutcome work n).1,
                   error_reason := (newsletterOutcome work n).2, updated_at := now }
        else y) := by
  cases hw : work n with
  | error m =>
    simp only [processNewsletterOne, newsletterOutcome, hw, updateNewsletterStatus,
      List.map_map]
    apply List.map_congr_left
    intro y _
    by_cases h : y.message_id == n.message_id
    · simp [Function.comp, h]
    · simp [Function.comp, h]
  | ok parsed =>
    simp only [processNewsletterOne, newsletterOutcome, hw, updateNewsletterStatus,
      List.map_map]
    apply List.map_congr_left
    intro y _
    by_cases h : y.message_id == n.message_id
    · simp [Function.comp, h]
    · simp [Function.comp, h]

theorem mem_processNewsletterOne_of_ne (work : Newsletter → Except String String)
    (buildPreview : String → String) (now : Nat) (db : DB) (n : Newsletter) (x : Newsletter)
    (hx : x ∈ (processNewsletterOne work buildPreview now db n).newsletters)
    (hne : x.message_id ≠ n.message_id) : x ∈ db.newsletters := by
  rw [processNewsletterOne_newsletters] at hx
  rcases List.mem_map.mp hx with ⟨y, hy, hfy⟩
  by_cases h : y.message_id == n.message_id
  · rw [if_pos h] at hfy
    exfalso
    apply hne
    rw [← hfy]
    simpa using h
  · rw [if_neg h] at hfy
    subst hfy
    exact hy

theorem foldl_processNewsletter_untouched (work : Newsletter → Except String String)
    (buildPreview : String → String) (now : Nat) :
    ∀ (l : List Newsletter) (db : DB) (g : String), (∀ n ∈ l, n.message_id ≠ g) →
      ∀ x ∈ (l.foldl (processNewsletterOne work buildPreview now) db).newsletters,
        x.message_id = g → x ∈ db.newsletters := by
  intro l
  induction l with
  | nil =>
    intro db g _ x hx _
    simpa using hx
  | cons n rest ih =>
    intro db g hne x hx hxg
    have hx2 := ih (processNewsletterOne work buildPreview now db n) g
      (fun t ht => hne t (List.mem_cons_of_mem n ht)) x (by simpa using hx) hxg
    refine mem_processNewsletterOne_of_ne work buildPreview now db n x hx2 ?_
    rw [hxg]
    exact (hne n (List.mem_cons_self n rest)).symm

theorem foldl_processNewsletter_outcome (work : Newsletter → Except String String)
    (buildPreview : String → String) (now : Nat) :
    ∀ (l : List Newsletter) (db : DB),
      l.Pairwise (fun a b => a.message_id ≠ b.message_id) →
      ∀ n ∈ l, ∀ x ∈ (l.foldl (processNewsletterOne work buildPreview now) db).newsletters,
        x.message_id = n.message_id →
        x.status = (newsletterOutcome work n).1 ∧
        x.error_reason = (newsletterOutcome work n).2 ∧ x.updated_at = now := by
  intro l
  induction l with
  | nil =>
    intro db _ n hn
    simp at hn
  | cons n0 rest ih =>
    intro db hp n hn x hx hxg
    rcases List.pairwise_cons.mp hp with ⟨hp0, hptail⟩
    rcases List.mem_cons.mp hn with h | h
    · subst h
      have hx2 : x ∈ (processNewsletterOne work buildPreview now db n).newsletters := by
        refine foldl_processNewsletter_untouched work buildPreview now rest _ n.message_id
          (fun t ht => (hp0 t ht).symm) x ?_ hxg
        simpa using hx
      rw [processNewsletterOne_newsletters] at hx2
      rcases List.mem_map.mp hx2 with ⟨y, _, hfy⟩
      by_cases h2 : y.message_id == n.message_id
      · rw [if_pos h2] at hfy
        rw [← hfy]
        exact ⟨rfl, rfl, rfl⟩
      · rw [if_neg h2] at hfy
        subst hfy
        exact absurd hxg (by simpa using h2)
    · exact ih (processNewsletterOne work buildPreview now db n0) hptail n h x
        (by simpa using hx) hxg

/-- C6: per-item isolation in both acquisition stages.  Over the snapshot
of pending items each stage iterates (all of which are attempted by the
fold), if the work for an item raises, that item — and only through its own
outcome — ends failed with the exception message as error_reason, while
every item whose work succeeds ends completed with a cleared error_reason;
one item's exception never aborts the batch. -/
theorem c6_batch_isolation (workE : EpisodeRecord → Except String String)
    (workN : Newsletter → Except String String) (buildPreview : String → String)
    (now : Nat) (db : DB) (limitE limitN : Option Nat)
    (hpe : ((getPendingEpisodes db.episodes limitE).map toEpisodeRecord).Pairwise
      (fun a b => a.guid ≠ b.guid))
    (hpn : (getPendingNewsletters db.newsletters limitN).Pairwise
      (fun a b => a.message_id ≠ b.message_id)) :
    (∀ r ∈ (getPendingEpisodes db.episodes limitE).map toEpisodeRecord,
      r.audio_url.isSome →
      ∀ x ∈ (processPendingEpisodes workE now db limitE).episodes, x.guid = r.guid →
        (∀ m, workE r = .error m →
          x.status = .failed ∧ x.error_reason = some m ∧ x.updated_at = now) ∧
        (∀ t, workE r = .ok t →
          x.status = .completed ∧ x.error_reason = none ∧ x.updated_at = now)) ∧
    (∀ n ∈ getPendingNewsletters db.newsletters limitN,
      ∀ x ∈ (processPendingNewsletters workN buildPreview now db limitN).newsletters,
        x.message_id = n.message_id →
        (∀ m, workN n = .error m →
          x.status = .failed ∧ x.error_reason = some m ∧ x.updated_at = now) ∧
        (∀ t, workN n = .ok t →
          x.status = .completed ∧ x.error_reason = none ∧ x.updated_at = now)) := by
  constructor
  · intro r hr hurl x hx hxg
    have hout := foldl_processEpisode_outcome workE now _ db hpe r hr x hx hxg
    obtain ⟨u, hu⟩ := Option.isSome_iff_exists.mp hurl
    constructor
    · intro m hm
      rw [podcastOutcome, hu, hm] at hout
      exact ⟨hout.1, hout.2.1, hout.2.2⟩
    · intro t ht
      rw [podcastOutcome, hu, ht] at hout
      exact ⟨hout.1, hout.2.1, hout.2.2⟩
  · intro n hn x hx hxg
    have hout := foldl_processNewsletter_outcome workN buildPreview now _ db hpn n hn x hx hxg
    constructor
    · intro m hm
      rw [newsletterOutcome, hm] at hout
      exact ⟨hout.1, hout.2.1, hout.2.2⟩
    · intro t ht
      rw [newsletterOutcome, ht] at hout
      exact ⟨hout.1, hout.2.1, hout.2.2⟩

/-- Two pending episodes and two pending newsletters for the batch
witness; the work functions raise exactly on g2 and m2. -/
def epPendA : Episode :=
  { guid := "g1", feed_url := "f", title := "A", publish_date := "2025-10-02",
    author := none, audio_url := some "u1", video_url := none, status := .pending,
    error_reason := none, created_at := 0, updated_at := 0 }

def epPendB : Episode :=
  { guid := "g2", feed_url := "f", title := "B", publish_date := "2025-10-01",
    author := none, audio_url := some "u2", video_url := none, status := .pending,
    error_reason := none, created_at := 0, updated_at := 0 }

def nlPendA : Newsletter :=
  { message_id := "m1", subject := "S1", sender := "x@y", date := "2025-10-02",
    body_html := none, body_text := some "Hello", link := none, status := .pending,
    error_reason := none, created_at := 0, updated_at := 0 }

def nlPendB : Newsletter :=
  { message_id := "m2", subject := "S2", sender := "x@y", date := "2025-10-01",
    body_html := some "<p>Hi</p>", body_text := none, link := none, status := .pending,
    error_reason := none, created_at := 0, updated_at := 0 }

def workEsample : EpisodeRecord → Except String String :=
  fun r => if r.guid == "g2" then .error "boom" else .ok "text"

def workNsample : Newsletter → Except String String :=
  fun n => if n.message_id == "m2" then .error "parse fail" else .ok "parsed"

def dbBatch : DB :=
  { episodes := [epPendA, epPendB], newsletters := [nlPendA, nlPendB],
    transcripts := [], summaries := [], digests := [] }

/-- Witness for C6 at the concrete batch: the item whose work raises ends
failed with the message, the others end completed. -/
theorem c6_witness :
    (∀ r ∈ (getPendingEpisodes dbBatch.episodes none).map toEpisodeRecord,
      r.audio_url.isSome →
      ∀ x ∈ (processPendingEpisodes workEsample 4 dbBatch none).episodes, x.guid = r.guid →
        (∀ m, workEsample r = .error m →
          x.status = .failed ∧ x.error_reason = some m ∧ x.updated_at = 4) ∧
        (∀ t, workEsample r = .ok t →
          x.status = .completed ∧ x.error_reason = none ∧ x.updated_at = 4)) ∧
    (∀ n ∈ getPendingNewsletters dbBatch.newsletters none,
      ∀ x ∈ (processPendingNewsletters workNsample (fun s => s) 4 dbBatch none).newsletters,
        x.message_id = n.message_id →
        (∀ m, workNsample n = .error m →
          x.status = .failed ∧ x.error_reason = some m ∧ x.updated_at = 4) ∧
        (∀ t, workNsample n = .ok t →
          x.status = .completed ∧ x.error_reason = none ∧ x.updated_at = 4)) :=
  c6_batch_isolation workEsample workNsample (fun s => s) 4 dbBatch none none
    (by decide) (by decide)

theorem mem_applyLimit (limit : Option Nat) (l : List α) (a : α)
    (ha : a ∈ applyLimit limit l) : a ∈ l := by
  cases limit with
  | none => exact ha
  | some n =>
    cases n with
    | zero => exact ha
    | succ k => exact List.take_subset _ _ ha

theorem mem_insertDescBy (key : α → String) (x a : α) :
    ∀ (l : List α), a ∈ insertDescBy key x l ↔ a = x ∨ a ∈ l := by
  intro l
  induction l with
  | nil => simp [insertDescBy]
  | cons y ys ih =>
    unfold insertDescBy
    by_cases h : strLt (key y) (key x)
    · rw [if_pos h]
      simp
    · rw [if_neg h]
      simp only [List.mem_cons, ih]
      tauto

theorem mem_sortDescBy (key : α → String) (a : α) :
    ∀ (l : List α), a ∈ sortDescBy key l ↔ a ∈ l := by
  intro l
  induction l with
  | nil => simp [sortDescBy]
  | cons y ys ih =>
    show a ∈ insertDescBy key y (sortDescBy key ys) ↔ _
    rw [mem_insertDescBy, ih]
    simp

/-- `SummaryCandidate` (src/db/repositories/summaries.py:16): the row
shape the summarization service iterates over; row.get defaults absent
fields to the empty string. -/
structure SummaryCandidate where
  item_id : String
  item_type : String
  title : String
  author : String
  date : String
  link : String
deriving DecidableEq, Repr

/-- Modelled from the spec: `get_items_needing_summary` is imported by
src/db/repositories/summaries.py and src/cli/summarize.py from
src/db/queries.py but its definition is absent from src.  Per spec §4.3
the eligibility covers items of either kind with status completed and no
Summary row for that identity and kind, so this is the union of the two
per-kind eligibility queries that are present in src, episodes tagged
podcast and newsletters tagged newsletter. -/
def getItemsNeedingSummary (db : DB) (limit : Option Nat) : List SummaryCandidate :=
  applyLimit limit
    (((getCompletedEpisodesNeedingSummary db.episodes db.transcripts db.summaries none).map
      (fun pr => { item_id := pr.1.guid, item_type := "podcast", title := pr.1.title,
                   author := pr.1.author.getD "", date := pr.1.publish_date, link := "" })) ++
     ((getCompletedNewslettersNeedingSummary db.newsletters db.summaries none).map
      (fun n => { item_id := n.message_id, item_type := "newsletter", title := n.subject,
                  author := n.sender, date := n.date, link := n.link.getD "" })))

/-- Modelled from the spec: `get_transcript_text` is imported by
src/db/repositories/transcripts.py and the tests from src/db/queries.py
but its definition is absent from src; it returns the transcript text for
an episode when a transcript row exists. -/
def getTranscriptText (ts : List TranscriptRow) (guid : String) : Option String :=
  (ts.find? (fun t => t.episode_guid == guid)).map (fun t => t.transcript_text)

/-- The structured payload the summarization collaborator returns, as the
JSON-encoded strings the service persists. -/
structure SummaryPayload where
  summary : String
  key_topics : String
  companies : String
  tools : String
  quotes : String
deriving DecidableEq, Repr

/-- One iteration of `SummarizationService.summarize_pending`
(src/services/summarization.py:36): non-podcast candidates are skipped
outright; a missing or empty transcript skips the item; otherwise the
summarizer and the rater are each called once (two LLM calls) and the
result is persisted via save_summary with raw and final rating equal.  The
second component counts the LLM calls made. -/
def summarizeOne (summarizer : SummaryCandidate → String → SummaryPayload)
    (rater : SummaryCandidate → SummaryPayload → Int) (now : Nat)
    (acc : DB × Nat) (cand : SummaryCandidate) : DB × Nat :=
  if cand.item_type == "podcast" then
    match getTranscriptText acc.1.transcripts cand.item_id with
    | none => acc
    | some t =>
      if t == "" then acc
      else
        let p := summarizer cand t
        let rt := rater cand p
        ({ acc.1 with summaries := (saveSummary acc.1.summaries now cand.item_id
            cand.item_type p.summary p.key_topics p.companies p.tools p.quotes rt rt) },
         acc.2 + 2)
  else acc

/-- `SummarizationService.summarize_pending`
(src/services/summarization.py:31): fold the per-candidate step over the
eligibility snapshot, counting LLM calls. -/
def summarizePending (summarizer : SummaryCandidate → String → SummaryPayload)
    (rater : SummaryCandidate → SummaryPayload → Int) (now : Nat) (db : DB)
    (limit : Option Nat) : DB × Nat :=
  (getItemsNeedingSummary db limit).foldl (summarizeOne summarizer rater now) (db, 0)

/-- A store holding one episode with a transcript, as in the
two-runs-in-a-row scenario. -/
def singleEpisodeDB (e : Episode) (tr : TranscriptRow) : DB :=
  { episodes := [e], newsletters := [], transcripts := [tr], summaries := [], digests := [] }

/-- C4: a completed episode that already has a Summary row of kind podcast
is never re-selected by the eligibility query; and over a store holding one
completed episode with a non-empty transcript, the first summarization run
creates exactly one Summary row making two LLM calls (summarize and rate),
while the second run makes zero LLM calls and leaves the store, hence the
row, unchanged. -/
theorem c4_summary_eligibility_idempotent :
    (∀ (eps : List Episode) (ts : List TranscriptRow) (ss : List SummaryRow)
       (limit : Option Nat) (e : Episode), e ∈ eps → e.status = .completed →
       (∃ s ∈ ss, s.item_id = e.guid ∧ s.item_type = "podcast") →
       ∀ pr ∈ getCompletedEpisodesNeedingSummary eps ts ss limit, pr.1.guid ≠ e.guid) ∧
    (∀ (summarizer : SummaryCandidate → String → SummaryPayload)
       (rater : SummaryCandidate → SummaryPayload → Int) (now : Nat)
       (e : Episode) (tr : TranscriptRow), e.status = .completed →
       tr.episode_guid = e.guid → tr.transcript_text ≠ "" →
       (((summarizePending summarizer rater now (singleEpisodeDB e tr) none).1.summaries.filter
           (fun row => row.item_id == e.guid)).length = 1 ∧
        (summarizePending summarizer rater now (singleEpisodeDB e tr) none).2 = 2 ∧
        summarizePending summarizer rater now
            (summarizePending summarizer rater now (singleEpisodeDB e tr) none).1 none =
          ((summarizePending summarizer rater now (singleEpisodeDB e tr) none).1, 0))) := by
  constructor
  · intro eps ts ss limit e _ _ hex pr hpr hgpr
    have hpr2 := mem_applyLimit _ _ _ hpr
    rw [mem_sortDescBy] at hpr2
    have hcond := (List.mem_filter.mp hpr2).2
    rw [Bool.and_eq_true] at hcond
    have hany : (ss.any (fun s => s.item_id == pr.1.guid && s.item_type == "podcast")) =
        true := by
      obtain ⟨s, hs, hsid, hstype⟩ := hex
      exact List.any_eq_true.mpr ⟨s, hs, by simp [hsid, hstype, hgpr]⟩
    rw [hany] at hcond
    simp at hcond
  · intro summarizer rater now e tr he htr hne
    have hg : (tr.episode_guid == e.guid) = true := by simp [htr]
    have hs : (e.status == Status.completed) = true := by simp [he]
    have ht : (tr.transcript_text == "") = false := beq_eq_false_iff_ne.mpr hne
    have hgg : (e.guid == e.guid) = true := by simp
    refine ⟨?_, ?_, ?_⟩ <;>
      simp [summarizePending, getItemsNeedingSummary, getCompletedEpisodesNeedingSummary,
        getCompletedNewslettersNeedingSummary, applyLimit, sortDescBy, insertDescBy,
        summarizeOne, getTranscriptText, saveSummary, singleEpisodeDB, hg, hs, ht, hgg]

def trSample : TranscriptRow :=
  { episode_guid := "ep-1", transcript_text := "Transcript text",
    transcript_path := "p.json", created_at := 0 }

def sumRowSample : SummaryRow :=
  { item_id := "ep-1", item_type := "podcast", summary := "s", key_topics := "[]",
    companies := "[]", tools := "[]", quotes := "[]", raw_rating := 3, final_rating := 3,
    created_at := 0 }

def dummySummarizer : SummaryCandidate → String → SummaryPayload :=
  fun _ _ => { summary := "s", key_topics := "[]", companies := "[]", tools := "[]",
               quotes := "[]" }

def dummyRater : SummaryCandidate → SummaryPayload → Int := fun _ _ => 3

/-- Witness for C4: with a summary row already stored the eligibility
query selects nothing for that episode, and the concrete two-run scenario
creates one row then does nothing. -/
theorem c4_witness :
    (∀ pr ∈ getCompletedEpisodesNeedingSummary [epCompleted] [trSample] [sumRowSample] none,
      pr.1.guid ≠ epCompleted.guid) ∧
    (((summarizePending dummySummarizer dummyRater 9 (singleEpisodeDB epCompleted trSample)
         none).1.summaries.filter (fun row => row.item_id == epCompleted.guid)).length = 1 ∧
     (summarizePending dummySummarizer dummyRater 9
         (singleEpisodeDB epCompleted trSample) none).2 = 2 ∧
     summarizePending dummySummarizer dummyRater 9
         (summarizePending dummySummarizer dummyRater 9
           (singleEpisodeDB epCompleted trSample) none).1 none =
       ((summarizePending dummySummarizer dummyRater 9
           (singleEpisodeDB epCompleted trSample) none).1, 0)) :=
  ⟨c4_summary_eligibility_idempotent.1 [epCompleted] [trSample] [sumRowSample] none
     epCompleted (List.mem_singleton.mpr rfl) rfl
     ⟨sumRowSample, List.mem_singleton.mpr rfl, rfl, rfl⟩,
   c4_summary_eligibility_idempotent.2 dummySummarizer dummyRater 9 epCompleted trSample
     rfl rfl (by decide)⟩

/-- A store holding exactly one completed newsletter and no summaries. -/
def dbNewsletterOnly : DB :=
  { episodes := [], newsletters := [nlCompleted], transcripts := [], summaries := [],
    digests := [] }

/-- C5 counterexample: a completed newsletter with no Summary row is
selected by the eligibility query, yet a summarization run makes zero LLM
calls and leaves the store unchanged — the loop skips every non-podcast
candidate, so the newsletter is never summarized. -/
theorem c5_counterexample :
    (getItemsNeedingSummary dbNewsletterOnly none).map (fun c => (c.item_id, c.item_type)) =
      [("msg-1", "newsletter")] ∧
    summarizePending dummySummarizer dummyRater 9 dbNewsletterOnly none =
      (dbNewsletterOnly, 0) := by
  constructor
  · rfl
  · rfl

/-- C5 (amended): the eligibility selects items of either kind — every
completed newsletter without a Summary row of kind newsletter yields a
candidate — but the summarization loop processes only podcast candidates:
every non-podcast candidate is skipped with no LLM call and no change to
the store, so newsletters are never summarized. -/
theorem c5_selected_but_skipped :
    (∀ (db : DB) (n : Newsletter), n ∈ db.newsletters → n.status = .completed →
      (db.summaries.any (fun s => s.item_id == n.message_id &&
        s.item_type == "newsletter")) = false →
      ({ item_id := n.message_id, item_type := "newsletter", title := n.subject,
         author := n.sender, date := n.date, link := n.link.getD "" } : SummaryCandidate) ∈
        getItemsNeedingSummary db none) ∧
    (∀ (summarizer : SummaryCandidate → String → SummaryPayload)
       (rater : SummaryCandidate → SummaryPayload → Int) (now : Nat) (acc : DB × Nat)
       (cand : SummaryCandidate), cand.item_type ≠ "podcast" →
      summarizeOne summarizer rater now acc cand = acc) := by
  constructor
  · intro db n hn hst hnos
    unfold getItemsNeedingSummary
    show _ ∈ applyLimit none _
    unfold applyLimit
    refine List.mem_append_right _ (List.mem_map.mpr ⟨n, ?_, rfl⟩)
    unfold getCompletedNewslettersNeedingSummary
    show n ∈ applyLimit none _
    unfold applyLimit
    rw [mem_sortDescBy]
    refine List.mem_filter.mpr ⟨hn, ?_⟩
    rw [hnos, hst]
    simp
  · intro summarizer rater now acc cand hne
    unfold summarizeOne
    have h : (cand.item_type == "podcast") = false := beq_eq_false_iff_ne.mpr hne
    rw [h]
    simp

/-- Witness for C5 amended at the concrete completed newsletter: its
candidate is selected, and the per-item step over it changes nothing. -/
theorem c5_witness :
    ({ item_id := "msg-1", item_type := "newsletter", title := "Weekly letter",
       author := "a@example.com", date := "2025-10-08", link := "" } : SummaryCandidate) ∈
      getItemsNeedingSummary dbNewsletterOnly none ∧
    summarizeOne dummySummarizer dummyRater 9 (dbNewsletterOnly, 0)
      { item_id := "msg-1", item_type := "newsletter", title := "Weekly letter",
        author := "a@example.com", date := "2025-10-08", link := "" } =
      (dbNewsletterOnly, 0) :=
  ⟨c5_selected_but_skipped.1 dbNewsletterOnly nlCompleted (List.mem_singleton.mpr rfl)
     rfl (by decide),
   c5_selected_but_skipped.2 dummySummarizer dummyRater 9 (dbNewsletterOnly, 0) _
     (by decide)⟩

end MediaDigest
